import Mathlib

/-!
Shallow embedding of the playback worker of the `music-player` repository
(`src/src-tauri/src/audio_player.rs`, `src/src-tauri/src/util.rs`, and the
inline worker loop in `src/src-tauri/src/lib.rs`).

Modelling conventions:
* `rodio::Sink` is modelled by its observable state used in the worker:
  `empty` (`sink.empty()`), `paused` (`sink.is_paused()`), and `pos`
  (`sink.get_pos().as_secs()`, whole seconds as in the source).
  `Sink::clear` empties and pauses the sink, `Sink::stop` empties it,
  `append` + `play` leave a non-empty, unpaused sink at position 0.
* File metadata reading (`lofty::read_from_path`) and audio decoding
  (`File::open` / `rodio::Decoder::new`) are external effects; they are
  passed in as oracles in `Env`.  `loadResult path = none` means the file
  opened and decoded successfully, `some e` is the error produced.
* Rust panics (unchecked `Vec` indexing such as `state.queue[index]`, and
  `unwrap()` on media-control calls that this model treats as always
  succeeding) are modelled by `Option`: `none` is a panic of the worker
  thread.
* `f32` volume values are carried opaquely (no arithmetic is ever
  performed on them in the modelled code, they are only passed through),
  represented by `Nat` stand-ins.
* UI notification emission (`handle.emit`) only logs failures in the
  source and changes no state; the emitted envelope is returned as data
  (`event` name plus `CmdResult`).  The throttled progress emission in
  `track_progress` touches no worker state other than the emit timer and
  is not modelled.
-/

namespace MusicPlayer

/-- Metadata read from a file by lofty (`read_from_path` succeeded);
the three tag fields are each optional, the duration comes from
`tagged_file.properties()`. -/
structure TagMeta where
  title : Option String
  artist : Option String
  album : Option String
  duration : Nat
deriving DecidableEq

/-- `TrackInfo` from `audio_player.rs` (the variant with the stored
`index` ordinal field). -/
structure TrackInfo where
  index : Nat
  title : String
  artist : String
  album : String
  duration : Nat
  path : String
deriving DecidableEq

/-- Observable state of the `rodio::Sink` owned by the worker thread. -/
structure Sink where
  empty : Bool
  paused : Bool
  pos : Nat
deriving DecidableEq

/-- `Sink::clear`: stops playback, drops all sources and leaves the sink
paused. -/
def Sink.clear (_ : Sink) : Sink := ⟨true, true, 0⟩

/-- `Sink::pause`. -/
def Sink.pause (s : Sink) : Sink := ⟨s.empty, true, s.pos⟩

/-- `Sink::play` (un-pause). -/
def Sink.play (s : Sink) : Sink := ⟨s.empty, false, s.pos⟩

/-- `Sink::stop`: drops all queued sources. -/
def Sink.stop (s : Sink) : Sink := ⟨true, s.paused, 0⟩

/-- `AudioState` from `audio_player.rs`, restricted to the data fields
(the `AppHandle`, `MediaControls` and channel sender are external
handles carrying no modelled state). -/
structure AudioState where
  queue : List TrackInfo
  current_index : Nat
  duration : Option Nat
  looped : Bool
deriving DecidableEq

/-- `AudioCommand` from `audio_player.rs`. -/
inductive AudioCommand
  | Queue (paths : List String)
  | Clear
  | Play (index : Nat)
  | Pause
  | Resume
  | Prev
  | Next
  | SetPosition (position : Nat)
  | SetLooped (looped : Bool)
  | SetVolume (volume : Nat)
deriving DecidableEq

/-- `CommandResponse` from `audio_player.rs`. -/
inductive CommandResponse
  | Queue (tracks : List TrackInfo)
  | Play (index : Nat) (track : TrackInfo)
  | Status (status : String)
  | Position (position : Nat)
  | Looped (looped : Bool)
  | Volume (volume : Nat)
deriving DecidableEq

/-- `AudioError` from `audio_player.rs`. -/
inductive AudioError
  | StreamError
  | SinkError
  | IoError
  | DecoderError
  | SeekError
  | LockError
  | EmptyQueueError
  | OutOfBoundsError
  | EmitError
  | Unknown (msg : String)
deriving DecidableEq

/-- The `Result<CommandResponse, AudioError>` computed by
`handle_audio_command` and wrapped into the emitted `Callback`
envelope. -/
inductive CmdResult
  | Ok (response : CommandResponse)
  | Err (err : AudioError)
deriving DecidableEq

/-- External-effect oracles: outcome of opening/decoding an audio file
at a given path, outcome of reading tags at a path, and whether the
device accepts a seek request. -/
structure Env where
  loadResult : String → Option AudioError
  readTags : String → Option TagMeta
  seekOk : Bool

/-- `get_track_info_from_path` from `util.rs`: total — a failed tag read
degrades to a placeholder descriptor, missing individual tags degrade
field-wise (the source uses the string "Unknown Title" as the default
for title, album and artist alike). -/
def get_track_info_from_path (readTags : String → Option TagMeta) (path : String)
    (index : Nat) : TrackInfo :=
  match readTags path with
  | some tag =>
      ⟨index, tag.title.getD "Unknown Title", tag.artist.getD "Unknown Title",
       tag.album.getD "Unknown Title", tag.duration, path⟩
  | none =>
      ⟨index, "Unknown Track", "Unknown Artist", "Unknown Album", 0, path⟩

/-- The `AudioCommand::Queue` loop of `handle_audio_command`: resolve the
paths in order, numbering the new descriptors from `i` upward (`i`
starts at the current queue length in the source). -/
def resolveFrom (readTags : String → Option TagMeta) (i : Nat) :
    List String → List TrackInfo
  | [] => []
  | p :: ps => get_track_info_from_path readTags p i :: resolveFrom readTags (i + 1) ps

/-- `play_track` from `util.rs`: clear the sink, open and decode the
file (this can fail: `File::open?` / `Decoder::new?`), append the
source, start the sink, and cache the descriptor duration in
`state.duration`.  Media-control metadata / playback updates and the
`track-change` emission carry no modelled state. -/
def play_track (env : Env) (track_info : TrackInfo) (sink : Sink)
    (state : AudioState) : Sink × AudioState × Option AudioError :=
  match env.loadResult track_info.path with
  | some e => (sink.clear, state, some e)
  | none => (⟨false, false, 0⟩, { state with duration := some track_info.duration }, none)

/-- One emitted result of `handle_audio_command`: the updated worker
state and sink, plus the event name and success/error payload of the
emitted `Callback` envelope. -/
structure HandleOut where
  st : AudioState
  sink : Sink
  event : String
  result : CmdResult
deriving DecidableEq

/-- Shared tail of the `Prev`/`Next` branches: play the chosen track and
report `Play { index: state.current_index, track }`. -/
def playResponding (env : Env) (t : TrackInfo) (st1 : AudioState) (sink : Sink) :
    HandleOut :=
  match play_track env t sink st1 with
  | (sink2, st2, none) => ⟨st2, sink2, "play", .Ok (.Play st2.current_index t)⟩
  | (sink2, st2, some e) => ⟨st2, sink2, "play", .Err e⟩

/-- `AudioPlayer::handle_audio_command` from `audio_player.rs`.
`none` models a Rust panic (the unchecked `state.queue[...]` indexing). -/
def handle_audio_command (env : Env) (command : AudioCommand) (state : AudioState)
    (sink : Sink) : Option HandleOut :=
  match command with
  | .Queue file_paths =>
      let queue2 := state.queue ++ resolveFrom env.readTags state.queue.length file_paths
      some ⟨{ state with queue := queue2 }, sink, "queue", .Ok (.Queue queue2)⟩
  | .Play index =>
      match state.queue.get? index with
      | none => none
      | some t =>
          match play_track env t sink state with
          | (sink2, st2, none) =>
              some ⟨{ st2 with current_index := index }, sink2, "play",
                    .Ok (.Play index t)⟩
          | (sink2, st2, some e) => some ⟨st2, sink2, "play", .Err e⟩
  | .Prev =>
      if state.queue.isEmpty then
        some ⟨state, sink, "play", .Err .EmptyQueueError⟩
      else
        let st1 :=
          if 0 < state.current_index ∧ sink.pos < 5 then
            { state with current_index := state.current_index - 1 }
          else state
        match st1.queue.get? st1.current_index with
        | none => none
        | some t => some (playResponding env t st1 sink)
  | .Next =>
      if state.queue.isEmpty then
        some ⟨state, sink, "play", .Err .EmptyQueueError⟩
      else if state.current_index < state.queue.length - 1 then
        let st1 := { state with current_index := state.current_index + 1 }
        match st1.queue.get? st1.current_index with
        | none => none
        | some t => some (playResponding env t st1 sink)
      else if state.looped then
        let st1 := { state with current_index := 0 }
        match st1.queue.get? 0 with
        | none => none
        | some t => some (playResponding env t st1 sink)
      else
        some ⟨state, sink, "play", .Err .OutOfBoundsError⟩
  | .Pause =>
      some ⟨state, sink.pause, "status", .Ok (.Status "paused")⟩
  | .Resume =>
      if state.queue.isEmpty then
        some ⟨state, sink, "play", .Err .EmptyQueueError⟩
      else if sink.empty then
        match state.queue.get? 0 with
        | none => none
        | some t =>
            match play_track env t sink state with
            | (sink2, st2, none) => some ⟨st2, sink2, "play", .Ok (.Play 0 t)⟩
            | (sink2, st2, some e) => some ⟨st2, sink2, "play", .Err e⟩
      else
        match state.queue.get? state.current_index with
        | none => none
        | some t => some ⟨state, sink.play, "play", .Ok (.Play state.current_index t)⟩
  | .SetPosition position =>
      if env.seekOk then
        some ⟨state, ⟨sink.empty, sink.paused, position⟩, "position",
              .Ok (.Position position)⟩
      else
        some ⟨state, sink, "position", .Err .SeekError⟩
  | .SetLooped looped =>
      some ⟨{ state with looped := looped }, sink, "looped", .Ok (.Looped looped)⟩
  | .SetVolume volume =>
      some ⟨state, sink, "volume", .Ok (.Volume volume)⟩
  | .Clear =>
      some ⟨{ state with queue := [], current_index := 0 }, sink.stop, "queue",
            .Ok (.Queue [])⟩

/-- The souvlaki `MediaControlEvent` variants (payloads carried
opaquely). -/
inductive MediaControlEvent
  | Play
  | Pause
  | Toggle
  | Next
  | Previous
  | Stop
  | Seek (forward : Bool)
  | SeekBy (forward : Bool) (by_secs : Nat)
  | SetPosition (position : Nat)
  | SetVolume (volume : Nat)
  | OpenUri (uri : String)
  | Raise
  | Quit
deriving DecidableEq

/-- `AudioPlayer::handle_media_event` from `audio_player.rs`: the
OS-event → command translation.  `none` models the catch-all `_ => {}`
arm, which sends nothing. -/
def handle_media_event : MediaControlEvent → Option AudioCommand
  | .Play => some .Resume
  | .Pause => some .Pause
  | .Next => some .Next
  | .Previous => some .Prev
  | .Stop => some .Pause
  | _ => none

/-- The auto-advance part of `AudioPlayer::track_progress` from
`audio_player.rs` (invoked by the worker loop only when the sink is
non-empty and unpaused): compare `sink.get_pos().as_secs()` against
`state.duration.unwrap_or(0)` with `>=`, and on end-of-track either
advance `current_index` and self-send `Play(current_index)`, wrap to 0
when `looped`, or self-send `Pause`.  Returns the updated state and the
command sent (if any) on the worker's own channel. -/
def track_progress (sink : Sink) (state : AudioState) :
    AudioState × Option AudioCommand :=
  if state.duration.getD 0 ≤ sink.pos then
    if state.queue.isEmpty then (state, none)
    else if state.current_index < state.queue.length - 1 then
      ({ state with current_index := state.current_index + 1 },
       some (.Play (state.current_index + 1)))
    else if state.looped then
      ({ state with current_index := 0 }, some (.Play 0))
    else (state, some .Pause)
  else (state, none)

/-- The end-of-track test of the inline worker loop in `lib.rs`
(line 249): `!sink.empty() && sink.get_pos().as_secs() ==
state.duration.unwrap_or(0)` — strict equality, unlike
`track_progress` in `audio_player.rs`. -/
def lib_end_of_track_check (sink : Sink) (duration : Option Nat) : Bool :=
  !sink.empty && (sink.pos == duration.getD 0)

/-- Full state of the worker thread: the pending FIFO contents of the
command channel, the `AudioState`, and the sink. -/
structure WorkerState where
  chan : List AudioCommand
  st : AudioState
  sink : Sink
deriving DecidableEq

/-- The progress phase of one worker-loop iteration: run
`track_progress` when `!sink.empty() && !sink.is_paused()`, appending
the self-sent command (if any) to the channel. -/
def progressPhase (w : WorkerState) : WorkerState :=
  if w.sink.empty = false ∧ w.sink.paused = false then
    let r := track_progress w.sink w.st
    ⟨w.chan ++ r.2.toList, r.1, w.sink⟩
  else w

/-- One iteration of the worker loop in `spawn_audio_thread`
(`audio_player.rs`): `try_recv` at most one command and dispatch it,
then run the progress phase.  `none` is a panic inside the dispatched
command; the second component is the envelope emitted by the dispatched
command, if one was processed. -/
def tick (env : Env) (w : WorkerState) :
    Option (WorkerState × Option (String × CmdResult)) :=
  match w.chan with
  | [] => some (progressPhase w, none)
  | c :: rest =>
      match handle_audio_command env c w.st w.sink with
      | none => none
      | some r => some (progressPhase ⟨rest, r.st, r.sink⟩, some (r.event, r.result))

/-- The worker state created at the top of `spawn_audio_thread`: empty
channel, empty queue, index 0, no cached duration, not looped; a fresh
sink is empty and unpaused. -/
def initWorker : WorkerState := ⟨[], ⟨[], 0, none, false⟩, ⟨true, false, 0⟩⟩

/-- Transitions of the worker's environment-facing step relation:
a producer sends a command, the worker runs one non-panicking loop
iteration, the playing device advances its reported position, or the
playing source drains (the sink becomes empty). -/
inductive Step (env : Env) : WorkerState → WorkerState → Prop
  | send (w : WorkerState) (c : AudioCommand) :
      Step env w ⟨w.chan ++ [c], w.st, w.sink⟩
  | tickOk (w w' : WorkerState) (e : Option (String × CmdResult)) :
      tick env w = some (w', e) → Step env w w'
  | devPos (w : WorkerState) (p : Nat) :
      Step env w ⟨w.chan, w.st, ⟨w.sink.empty, w.sink.paused, p⟩⟩
  | devDrain (w : WorkerState) :
      Step env w ⟨w.chan, w.st, ⟨true, w.sink.paused, w.sink.pos⟩⟩

/-- Worker states reachable from the initial state. -/
inductive Reachable (env : Env) : WorkerState → Prop
  | init : Reachable env initWorker
  | step {w w' : WorkerState} : Reachable env w → Step env w w' → Reachable env w'

/-- The queue/index invariant of the spec: a non-empty queue keeps
`current_index` strictly below its length, and an empty queue keeps
`current_index` at 0. -/
def QueueInv (st : AudioState) : Prop :=
  (st.queue ≠ [] → st.current_index < st.queue.length) ∧
  (st.queue = [] → st.current_index = 0)

/-- The implicit ordinal invariant: the stored `index` field of each
queued descriptor equals its list position. -/
def IndexInv (st : AudioState) : Prop :=
  ∀ p t, st.queue.get? p = some t → t.index = p

/-- Demo environment: every file decodes, no file has readable tags,
seeks succeed. -/
def demoEnv : Env := ⟨fun _ => none, fun _ => none, true⟩

/-- Demo tracks for concrete scenarios (3-second tracks). -/
def tA : TrackInfo := ⟨0, "A", "artA", "albA", 3, "a.mp3"⟩

def tB : TrackInfo := ⟨1, "B", "artB", "albB", 3, "b.mp3"⟩

def tC : TrackInfo := ⟨2, "C", "artC", "albC", 3, "c.mp3"⟩

/-- 3-track demo audio state at index `i`, cached duration 3, not
looped. -/
def st3 (i : Nat) : AudioState := ⟨[tA, tB, tC], i, some 3, false⟩

lemma isEmpty_eq_false_of_ne_nil {α : Type} {l : List α} (h : l ≠ []) :
    l.isEmpty = false := by
  simp [List.isEmpty_iff, h]

lemma get?_some_lt {α : Type} {l : List α} {n : Nat} {a : α}
    (h : l.get? n = some a) : n < l.length := by
  rw [List.get?_eq_some] at h
  exact h.1

lemma ne_nil_of_get?_some {α : Type} {l : List α} {n : Nat} {a : α}
    (h : l.get? n = some a) : l ≠ [] := by
  intro he
  rw [he] at h
  exact Option.noConfusion h

lemma get?_append_cases {α : Type} (l l' : List α) (p : Nat) (t : α)
    (h : (l ++ l').get? p = some t) :
    l.get? p = some t ∨ (l.length ≤ p ∧ l'.get? (p - l.length) = some t) := by
  induction l generalizing p with
  | nil =>
      right
      simpa using h
  | cons a l ih =>
      cases p with
      | zero =>
          left
          simpa using h
      | succ p =>
          rcases ih p (by simpa using h) with h1 | ⟨h2, h3⟩
          · left
            simpa using h1
          · right
            refine ⟨Nat.succ_le_succ h2, ?_⟩
            simpa [Nat.succ_sub_succ] using h3

lemma get_track_info_index (r : String → Option TagMeta) (p : String) (i : Nat) :
    (get_track_info_from_path r p i).index = i := by
  unfold get_track_info_from_path
  cases r p <;> rfl

lemma resolveFrom_index (r : String → Option TagMeta) :
    ∀ (ps : List String) (i p : Nat) (t : TrackInfo),
      (resolveFrom r i ps).get? p = some t → t.index = i + p := by
  intro ps
  induction ps with
  | nil =>
      intro i p t h
      simp [resolveFrom] at h
  | cons a ps ih =>
      intro i p t h
      cases p with
      | zero =>
          rw [resolveFrom, List.get?_cons_zero, Option.some.injEq] at h
          rw [← h, get_track_info_index, Nat.add_zero]
      | succ p =>
          rw [resolveFrom, List.get?_cons_succ] at h
          have := ih (i + 1) p t h
          omega

lemma resolveFrom_map_path (r : String → Option TagMeta) :
    ∀ (ps : List String) (i : Nat),
      (resolveFrom r i ps).map (fun t => t.path) = ps := by
  intro ps
  induction ps with
  | nil => intro i; rfl
  | cons a ps ih =>
      intro i
      have hpath : (get_track_info_from_path r a i).path = a := by
        unfold get_track_info_from_path
        cases r a <;> rfl
      simp [resolveFrom, hpath, ih (i + 1)]

lemma play_track_proj (env : Env) (t : TrackInfo) (sink : Sink) (st : AudioState) :
    (play_track env t sink st).2.1.queue = st.queue ∧
    (play_track env t sink st).2.1.current_index = st.current_index ∧
    (play_track env t sink st).2.1.looped = st.looped := by
  unfold play_track
  cases env.loadResult t.path <;> exact ⟨rfl, rfl, rfl⟩

/-- C1: the progress/auto-advance check of `audio_player.rs` fires
exactly when `position >= duration` (its self-sent command is present
iff the position has reached the cached duration), whereas the inline
worker loop of `lib.rs` compares with strict equality: its end-of-track
condition holds iff `position == duration`, so at position 4 with
cached duration 3 the `lib.rs` check does not fire while
`track_progress` advances to the next track. -/
theorem C1_end_of_track_ge_vs_eq :
    (∀ p d, lib_end_of_track_check ⟨false, false, p⟩ (some d) = (p == d))
  ∧ lib_end_of_track_check ⟨false, false, 4⟩ (some 3) = false
  ∧ (∀ p d,
      ((track_progress ⟨false, false, p⟩ ⟨[tA, tB], 0, some d, false⟩).2).isSome =
        decide (d ≤ p))
  ∧ (track_progress ⟨false, false, 4⟩ ⟨[tA, tB], 0, some 3, false⟩).2 =
      some (.Play 1) := by
  refine ⟨?_, by decide, ?_, by decide⟩
  · intro p d
    simp [lib_end_of_track_check]
  · intro p d
    by_cases h : d ≤ p
    · simp [track_progress, h]
    · simp [track_progress, h]

/-- C2: `AudioCommand::Play(index)` with `index >= queue.length` does
not report `OutOfBoundsError`: the unchecked `state.queue[index]`
indexing panics (modelled by `none`), crashing the worker thread.  With
a valid index the handler sets `current_index = index`, caches the
descriptor duration and reports success with the new index and track. -/
theorem C2_play_out_of_bounds_panics :
    handle_audio_command demoEnv (.Play 1) ⟨[tA], 0, none, false⟩ ⟨true, false, 0⟩ = none
  ∧ handle_audio_command demoEnv (.Play 0) ⟨[tA], 0, none, false⟩ ⟨true, false, 0⟩ =
      some ⟨⟨[tA], 0, some 3, false⟩, ⟨false, false, 0⟩, "play", .Ok (.Play 0 tA)⟩ := by
  constructor
  · rfl
  · rfl

/-- C3: on a 3-track non-looping queue playing at index 0, simulating
the device position reaching the cached duration makes successive
worker-loop iterations advance `current_index` to 1, then to 2, then
self-send `Pause`, after which the worker pauses the device and reports
paused status; every emitted envelope is a success, and the resulting
paused state is terminal: a loop iteration leaves it unchanged at every
device position. -/
theorem C3_auto_advance_three_tracks :
    tick demoEnv ⟨[], st3 0, ⟨false, false, 3⟩⟩ =
      some (⟨[.Play 1], st3 1, ⟨false, false, 3⟩⟩, none)
  ∧ tick demoEnv ⟨[.Play 1], st3 1, ⟨false, false, 3⟩⟩ =
      some (⟨[], st3 1, ⟨false, false, 0⟩⟩, some ("play", .Ok (.Play 1 tB)))
  ∧ tick demoEnv ⟨[], st3 1, ⟨false, false, 3⟩⟩ =
      some (⟨[.Play 2], st3 2, ⟨false, false, 3⟩⟩, none)
  ∧ tick demoEnv ⟨[.Play 2], st3 2, ⟨false, false, 3⟩⟩ =
      some (⟨[], st3 2, ⟨false, false, 0⟩⟩, some ("play", .Ok (.Play 2 tC)))
  ∧ tick demoEnv ⟨[], st3 2, ⟨false, false, 3⟩⟩ =
      some (⟨[.Pause], st3 2, ⟨false, false, 3⟩⟩, none)
  ∧ tick demoEnv ⟨[.Pause], st3 2, ⟨false, false, 3⟩⟩ =
      some (⟨[], st3 2, ⟨false, true, 3⟩⟩, some ("status", .Ok (.Status "paused")))
  ∧ (∀ p, tick demoEnv ⟨[], st3 2, ⟨false, true, p⟩⟩ =
      some (⟨[], st3 2, ⟨false, true, p⟩⟩, none))
  ∧ (st3 2).current_index = 2 := by
  refine ⟨rfl, rfl, rfl, rfl, rfl, rfl, ?_, rfl⟩
  intro p
  simp [tick, progressPhase]

/-- C6 counterexample: with a non-empty queue, `current_index = 1`, and
an empty (idle) sink, `Resume` starts the track at index 0 and reports
index 0, but leaves `current_index` at 1, whereas `Play(0)` on the same
state sets `current_index` to 0 — so `Resume` on an idle device does
not behave like `PlayAt(0)`. -/
theorem C6_resume_not_playat0_counterexample :
    handle_audio_command demoEnv .Resume ⟨[tA, tB], 1, some 3, false⟩ ⟨true, false, 7⟩ =
      some ⟨⟨[tA, tB], 1, some 3, false⟩, ⟨false, false, 0⟩, "play", .Ok (.Play 0 tA)⟩
  ∧ handle_audio_command demoEnv (.Play 0) ⟨[tA, tB], 1, some 3, false⟩ ⟨true, false, 7⟩ =
      some ⟨⟨[tA, tB], 0, some 3, false⟩, ⟨false, false, 0⟩, "play", .Ok (.Play 0 tA)⟩
  ∧ (⟨[tA, tB], 1, some 3, false⟩ : AudioState).current_index ≠
      (⟨[tA, tB], 0, some 3, false⟩ : AudioState).current_index := by
  refine ⟨rfl, rfl, by decide⟩

/-- C9 counterexample: the OS media-event translation in
`audio_player.rs` maps the stop event to `Pause` (there is no stop
command in this variant's `AudioCommand` at all) and silently drops
seek-position and volume events, sending no command for them. -/
theorem C9_media_event_counterexample :
    handle_media_event .Stop = some .Pause
  ∧ handle_media_event (.SetPosition 9) = none
  ∧ handle_media_event (.SetVolume 5) = none
  ∧ handle_media_event (.Seek true) = none := by
  refine ⟨rfl, rfl, rfl, rfl⟩

/-- C9 amended: the translation maps play→Resume, pause→Pause,
next→Next, previous→Prev one-to-one; the stop event is mapped onto
`Pause` rather than a stop command, and the toggle, seek, seek-by,
set-position, set-volume, open-uri, raise and quit events are dropped
(no command is sent). -/
theorem C9_media_event_translation :
    handle_media_event .Play = some .Resume
  ∧ handle_media_event .Pause = some .Pause
  ∧ handle_media_event .Next = some .Next
  ∧ handle_media_event .Previous = some .Prev
  ∧ handle_media_event .Stop = some .Pause
  ∧ handle_media_event .Toggle = none
  ∧ (∀ f, handle_media_event (.Seek f) = none)
  ∧ (∀ f d, handle_media_event (.SeekBy f d) = none)
  ∧ (∀ p, handle_media_event (.SetPosition p) = none)
  ∧ (∀ v, handle_media_event (.SetVolume v) = none)
  ∧ (∀ u, handle_media_event (.OpenUri u) = none)
  ∧ handle_media_event .Raise = none
  ∧ handle_media_event .Quit = none := by
  exact ⟨rfl, rfl, rfl, rfl, rfl, rfl, fun _ => rfl, fun _ _ => rfl, fun _ => rfl,
    fun _ => rfl, fun _ => rfl, rfl, rfl⟩

/-- C7: `AudioCommand::Queue(paths)` appends the resolved descriptors to
the existing queue (numbered from the current length), leaves
`current_index`, the cached duration, the loop flag, and the sink (no
playback side effect) unchanged, and reports the new queue; resolution
is total and order-preserving (the path of the p-th new descriptor is
the p-th input path), and an unreadable file degrades to the
placeholder descriptor. -/
theorem C7_add_to_queue :
    (∀ (env : Env) (st : AudioState) (sink : Sink) (paths : List String),
      handle_audio_command env (.Queue paths) st sink =
        some ⟨⟨st.queue ++ resolveFrom env.readTags st.queue.length paths,
               st.current_index, st.duration, st.looped⟩, sink, "queue",
              .Ok (.Queue (st.queue ++ resolveFrom env.readTags st.queue.length paths))⟩)
  ∧ (∀ (r : String → Option TagMeta) (i : Nat) (paths : List String),
      (resolveFrom r i paths).map (fun t => t.path) = paths)
  ∧ (∀ (p : String) (i : Nat),
      get_track_info_from_path (fun _ => none) p i =
        ⟨i, "Unknown Track", "Unknown Artist", "Unknown Album", 0, p⟩) := by
  refine ⟨fun env st sink paths => rfl, fun r i paths => resolveFrom_map_path r paths i,
    fun p i => rfl⟩

/-- C4: `Next` reports `EmptyQueueError` on an empty queue; below the
last index it increments `current_index` and starts that track
(caching its duration); at or past the last index with `looped = true`
it wraps to 0 and starts track 0; at or past the last index with
`looped = false` it reports `OutOfBoundsError` leaving the state and
sink exactly unchanged. -/
theorem C4_next_command :
    (∀ (env : Env) (st : AudioState) (sink : Sink), st.queue = [] →
      handle_audio_command env .Next st sink =
        some ⟨st, sink, "play", .Err .EmptyQueueError⟩)
  ∧ (∀ (env : Env) (st : AudioState) (sink : Sink) (t : TrackInfo),
      st.current_index + 1 < st.queue.length →
      st.queue.get? (st.current_index + 1) = some t →
      env.loadResult t.path = none →
      handle_audio_command env .Next st sink =
        some ⟨⟨st.queue, st.current_index + 1, some t.duration, st.looped⟩,
              ⟨false, false, 0⟩, "play", .Ok (.Play (st.current_index + 1) t)⟩)
  ∧ (∀ (env : Env) (st : AudioState) (sink : Sink) (t : TrackInfo),
      st.queue ≠ [] → st.queue.length - 1 ≤ st.current_index → st.looped = true →
      st.queue.get? 0 = some t → env.loadResult t.path = none →
      handle_audio_command env .Next st sink =
        some ⟨⟨st.queue, 0, some t.duration, true⟩, ⟨false, false, 0⟩, "play",
              .Ok (.Play 0 t)⟩)
  ∧ (∀ (env : Env) (st : AudioState) (sink : Sink),
      st.queue ≠ [] → st.queue.length - 1 ≤ st.current_index → st.looped = false →
      handle_audio_command env .Next st sink =
        some ⟨st, sink, "play", .Err .OutOfBoundsError⟩) := by
  refine ⟨?_, ?_, ?_, ?_⟩
  · intro env st sink h
    simp [handle_audio_command, h]
  · intro env st sink t hlt hget hload
    have hne : st.queue ≠ [] := by
      intro hq
      rw [hq] at hlt
      simp at hlt
    have hlt2 : st.current_index < st.queue.length - 1 := by omega
    simp only [handle_audio_command, isEmpty_eq_false_of_ne_nil hne,
      Bool.false_eq_true, if_false, if_pos hlt2]
    rw [hget]
    simp [playResponding, play_track, hload]
  · intro env st sink t hne hle hloop hget hload
    have hnlt : ¬ st.current_index < st.queue.length - 1 := by omega
    simp only [handle_audio_command, isEmpty_eq_false_of_ne_nil hne,
      Bool.false_eq_true, if_false, if_neg hnlt, hloop, if_true]
    rw [hget]
    simp [playResponding, play_track, hload, hloop]
  · intro env st sink hne hle hloop
    have hnlt : ¬ st.current_index < st.queue.length - 1 := by omega
    simp [handle_audio_command, isEmpty_eq_false_of_ne_nil hne, hnlt, hloop]

/-- Witness for C4: all four branches exercised at concrete states. -/
theorem C4_next_command_witness :
    handle_audio_command demoEnv .Next ⟨[], 0, none, false⟩ ⟨true, false, 0⟩ =
      some ⟨⟨[], 0, none, false⟩, ⟨true, false, 0⟩, "play", .Err .EmptyQueueError⟩
  ∧ handle_audio_command demoEnv .Next ⟨[tA, tB, tC], 0, some 3, false⟩ ⟨false, false, 3⟩ =
      some ⟨⟨[tA, tB, tC], 1, some 3, false⟩, ⟨false, false, 0⟩, "play",
            .Ok (.Play 1 tB)⟩
  ∧ handle_audio_command demoEnv .Next ⟨[tA, tB], 1, some 3, true⟩ ⟨false, false, 3⟩ =
      some ⟨⟨[tA, tB], 0, some 3, true⟩, ⟨false, false, 0⟩, "play", .Ok (.Play 0 tA)⟩
  ∧ handle_audio_command demoEnv .Next ⟨[tA, tB], 1, some 3, false⟩ ⟨false, false, 3⟩ =
      some ⟨⟨[tA, tB], 1, some 3, false⟩, ⟨false, false, 3⟩, "play",
            .Err .OutOfBoundsError⟩ :=
  ⟨C4_next_command.1 demoEnv _ _ rfl,
   C4_next_command.2.1 demoEnv _ _ tB (by decide) (by decide) rfl,
   C4_next_command.2.2.1 demoEnv _ _ tA (by decide) (by decide) rfl (by decide) rfl,
   C4_next_command.2.2.2 demoEnv _ _ (by decide) (by decide) rfl⟩

/-- C5: `Prev` reports `EmptyQueueError` on an empty queue; with
`current_index > 0` and an elapsed position under the 5-second restart
threshold it decrements `current_index` and starts that track; in every
other non-empty case (`current_index = 0`, or elapsed at/after the
threshold) it restarts the current track from position 0 leaving
`current_index` unchanged (being a `Nat`, the index can never go below
0). -/
theorem C5_prev_command :
    (∀ (env : Env) (st : AudioState) (sink : Sink), st.queue = [] →
      handle_audio_command env .Prev st sink =
        some ⟨st, sink, "play", .Err .EmptyQueueError⟩)
  ∧ (∀ (env : Env) (st : AudioState) (sink : Sink) (t : TrackInfo),
      0 < st.current_index → sink.pos < 5 →
      st.queue.get? (st.current_index - 1) = some t →
      env.loadResult t.path = none →
      handle_audio_command env .Prev st sink =
        some ⟨⟨st.queue, st.current_index - 1, some t.duration, st.looped⟩,
              ⟨false, false, 0⟩, "play", .Ok (.Play (st.current_index - 1) t)⟩)
  ∧ (∀ (env : Env) (st : AudioState) (sink : Sink) (t : TrackInfo),
      st.queue ≠ [] → (st.current_index = 0 ∨ 5 ≤ sink.pos) →
      st.queue.get? st.current_index = some t →
      env.loadResult t.path = none →
      handle_audio_command env .Prev st sink =
        some ⟨⟨st.queue, st.current_index, some t.duration, st.looped⟩,
              ⟨false, false, 0⟩, "play", .Ok (.Play st.current_index t)⟩) := by
  refine ⟨?_, ?_, ?_⟩
  · intro env st sink h
    simp [handle_audio_command, h]
  · intro env st sink t hpos hthresh hget hload
    have hne : st.queue ≠ [] := ne_nil_of_get?_some hget
    have hcond : 0 < st.current_index ∧ sink.pos < 5 := ⟨hpos, hthresh⟩
    simp only [handle_audio_command, isEmpty_eq_false_of_ne_nil hne,
      Bool.false_eq_true, if_false, if_pos hcond]
    rw [hget]
    simp [playResponding, play_track, hload]
  · intro env st sink t hne hcase hget hload
    have hcond : ¬ (0 < st.current_index ∧ sink.pos < 5) := by
      rcases hcase with h0 | h5 <;> omega
    simp only [handle_audio_command, isEmpty_eq_false_of_ne_nil hne,
      Bool.false_eq_true, if_false, if_neg hcond]
    rw [hget]
    simp [playResponding, play_track, hload]

/-- Witness for C5: all three branches exercised at concrete states. -/
theorem C5_prev_command_witness :
    handle_audio_command demoEnv .Prev ⟨[], 0, none, false⟩ ⟨true, false, 0⟩ =
      some ⟨⟨[], 0, none, false⟩, ⟨true, false, 0⟩, "play", .Err .EmptyQueueError⟩
  ∧ handle_audio_command demoEnv .Prev ⟨[tA, tB], 1, some 3, false⟩ ⟨false, false, 2⟩ =
      some ⟨⟨[tA, tB], 0, some 3, false⟩, ⟨false, false, 0⟩, "play", .Ok (.Play 0 tA)⟩
  ∧ handle_audio_command demoEnv .Prev ⟨[tA, tB], 1, some 3, false⟩ ⟨false, false, 6⟩ =
      some ⟨⟨[tA, tB], 1, some 3, false⟩, ⟨false, false, 0⟩, "play", .Ok (.Play 1 tB)⟩ :=
  ⟨C5_prev_command.1 demoEnv _ _ rfl,
   C5_prev_command.2.1 demoEnv _ _ tA (by decide) (by decide) (by decide) rfl,
   C5_prev_command.2.2 demoEnv _ _ tB (by decide) (by decide) (by decide) rfl⟩

/-- C6 amended: `Resume` reports `EmptyQueueError` on an empty queue;
with a non-empty queue and an idle (empty) sink it starts the track at
index 0 and reports index 0 with that track — like `PlayAt(0)` except
that `current_index` is left unchanged rather than set to 0; with a
non-idle sink it un-pauses the device and reports playing at the
unchanged `current_index`. -/
theorem C6_resume_command :
    (∀ (env : Env) (st : AudioState) (sink : Sink), st.queue = [] →
      handle_audio_command env .Resume st sink =
        some ⟨st, sink, "play", .Err .EmptyQueueError⟩)
  ∧ (∀ (env : Env) (st : AudioState) (sink : Sink) (t : TrackInfo),
      sink.empty = true → st.queue.get? 0 = some t →
      env.loadResult t.path = none →
      handle_audio_command env .Resume st sink =
        some ⟨⟨st.queue, st.current_index, some t.duration, st.looped⟩,
              ⟨false, false, 0⟩, "play", .Ok (.Play 0 t)⟩)
  ∧ (∀ (env : Env) (st : AudioState) (sink : Sink) (t : TrackInfo),
      st.queue ≠ [] → sink.empty = false →
      st.queue.get? st.current_index = some t →
      handle_audio_command env .Resume st sink =
        some ⟨st, ⟨false, false, sink.pos⟩, "play",
              .Ok (.Play st.current_index t)⟩) := by
  refine ⟨?_, ?_, ?_⟩
  · intro env st sink h
    simp [handle_audio_command, h]
  · intro env st sink t hempty hget hload
    have hne : st.queue ≠ [] := ne_nil_of_get?_some hget
    simp only [handle_audio_command, isEmpty_eq_false_of_ne_nil hne,
      Bool.false_eq_true, if_false, hempty, if_true]
    rw [hget]
    simp [play_track, hload]
  · intro env st sink t hne hempty hget
    simp only [handle_audio_command, isEmpty_eq_false_of_ne_nil hne,
      Bool.false_eq_true, if_false, hempty]
    rw [hget]
    simp [Sink.play, hempty]

/-- Witness for C6: all three branches exercised at concrete states. -/
theorem C6_resume_command_witness :
    handle_audio_command demoEnv .Resume ⟨[], 0, none, false⟩ ⟨true, false, 0⟩ =
      some ⟨⟨[], 0, none, false⟩, ⟨true, false, 0⟩, "play", .Err .EmptyQueueError⟩
  ∧ handle_audio_command demoEnv .Resume ⟨[tA, tB], 1, some 3, false⟩ ⟨true, false, 7⟩ =
      some ⟨⟨[tA, tB], 1, some 3, false⟩, ⟨false, false, 0⟩, "play", .Ok (.Play 0 tA)⟩
  ∧ handle_audio_command demoEnv .Resume ⟨[tA, tB], 1, some 3, false⟩ ⟨false, true, 2⟩ =
      some ⟨⟨[tA, tB], 1, some 3, false⟩, ⟨false, false, 2⟩, "play", .Ok (.Play 1 tB)⟩ :=
  ⟨C6_resume_command.1 demoEnv _ _ rfl,
   C6_resume_command.2.1 demoEnv _ _ tA rfl (by decide) rfl,
   C6_resume_command.2.2 demoEnv _ _ tB (by decide) rfl (by decide)⟩

lemma playResponding_proj (env : Env) (t : TrackInfo) (st1 : AudioState) (sink : Sink) :
    (playResponding env t st1 sink).st.queue = st1.queue ∧
    (playResponding env t st1 sink).st.current_index = st1.current_index := by
  unfold playResponding play_track
  cases env.loadResult t.path <;> exact ⟨rfl, rfl⟩

lemma handle_shape {env : Env} {c : AudioCommand} {st : AudioState} {sink : Sink}
    {out : HandleOut} (h : handle_audio_command env c st sink = some out) :
    (out.st.queue = st.queue ∧ out.st.current_index = st.current_index) ∨
    (out.st.queue = st.queue ∧ ∃ t, st.queue.get? out.st.current_index = some t) ∨
    (out.st.queue = [] ∧ out.st.current_index = 0) ∨
    (∃ ps, out.st.queue = st.queue ++ resolveFrom env.readTags st.queue.length ps ∧
       out.st.current_index = st.current_index) := by
  cases c with
  | Queue paths =>
      simp only [handle_audio_command, Option.some.injEq] at h
      subst h
      exact Or.inr (Or.inr (Or.inr ⟨paths, rfl, rfl⟩))
  | Clear =>
      simp only [handle_audio_command, Option.some.injEq] at h
      subst h
      exact Or.inr (Or.inr (Or.inl ⟨rfl, rfl⟩))
  | Play index =>
      simp only [handle_audio_command] at h
      split at h
      · exact Option.noConfusion h
      next t hg =>
        split at h
        next sink2 st2 hp =>
          simp only [Option.some.injEq] at h
          subst h
          have hproj := play_track_proj env t sink st
          rw [hp] at hproj
          exact Or.inr (Or.inl ⟨hproj.1, t, hg⟩)
        next sink2 st2 e hp =>
          simp only [Option.some.injEq] at h
          subst h
          have hproj := play_track_proj env t sink st
          rw [hp] at hproj
          exact Or.inl ⟨hproj.1, hproj.2.1⟩
  | Pause =>
      simp only [handle_audio_command, Option.some.injEq] at h
      subst h
      exact Or.inl ⟨rfl, rfl⟩
  | SetPosition p =>
      simp only [handle_audio_command] at h
      split at h <;> simp only [Option.some.injEq] at h <;> subst h <;>
        exact Or.inl ⟨rfl, rfl⟩
  | SetLooped b =>
      simp only [handle_audio_command, Option.some.injEq] at h
      subst h
      exact Or.inl ⟨rfl, rfl⟩
  | SetVolume v =>
      simp only [handle_audio_command, Option.some.injEq] at h
      subst h
      exact Or.inl ⟨rfl, rfl⟩
  | Prev =>
      simp only [handle_audio_command] at h
      by_cases hq : st.queue.isEmpty = true
      · rw [if_pos hq, Option.some.injEq] at h
        subst h
        exact Or.inl ⟨rfl, rfl⟩
      · rw [if_neg hq] at h
        by_cases hc : 0 < st.current_index ∧ sink.pos < 5
        · simp only [if_pos hc] at h
          split at h
          · exact Option.noConfusion h
          next t hg =>
            simp only [Option.some.injEq] at h
            subst h
            refine Or.inr (Or.inl ⟨?_, t, ?_⟩)
            · exact (playResponding_proj env t
                { st with current_index := st.current_index - 1 } sink).1
            · rw [(playResponding_proj env t
                { st with current_index := st.current_index - 1 } sink).2]
              exact hg
        · simp only [if_neg hc] at h
          split at h
          · exact Option.noConfusion h
          next t hg =>
            simp only [Option.some.injEq] at h
            subst h
            refine Or.inr (Or.inl ⟨?_, t, ?_⟩)
            · exact (playResponding_proj env t st sink).1
            · rw [(playResponding_proj env t st sink).2]
              exact hg
  | Next =>
      simp only [handle_audio_command] at h
      by_cases hq : st.queue.isEmpty = true
      · rw [if_pos hq, Option.some.injEq] at h
        subst h
        exact Or.inl ⟨rfl, rfl⟩
      · rw [if_neg hq] at h
        by_cases hlt : st.current_index < st.queue.length - 1
        · rw [if_pos hlt] at h
          split at h
          · exact Option.noConfusion h
          next t hg =>
            simp only [Option.some.injEq] at h
            subst h
            refine Or.inr (Or.inl ⟨?_, t, ?_⟩)
            · exact (playResponding_proj env t
                { st with current_index := st.current_index + 1 } sink).1
            · rw [(playResponding_proj env t
                { st with current_index := st.current_index + 1 } sink).2]
              exact hg
        · rw [if_neg hlt] at h
          by_cases hl : st.looped = true
          · rw [if_pos hl] at h
            split at h
            · exact Option.noConfusion h
            next t hg =>
              simp only [Option.some.injEq] at h
              subst h
              refine Or.inr (Or.inl ⟨?_, t, ?_⟩)
              · exact (playResponding_proj env t
                  { st with current_index := 0 } sink).1
              · rw [(playResponding_proj env t
                  { st with current_index := 0 } sink).2]
                exact hg
          · rw [if_neg hl, Option.some.injEq] at h
            subst h
            exact Or.inl ⟨rfl, rfl⟩
  | Resume =>
      simp only [handle_audio_command] at h
      by_cases hq : st.queue.isEmpty = true
      · rw [if_pos hq, Option.some.injEq] at h
        subst h
        exact Or.inl ⟨rfl, rfl⟩
      · rw [if_neg hq] at h
        by_cases hse : sink.empty = true
        · rw [if_pos hse] at h
          split at h
          · exact Option.noConfusion h
          next t hg =>
            split at h
            next sink2 st2 hp =>
              simp only [Option.some.injEq] at h
              subst h
              have hproj := play_track_proj env t sink st
              rw [hp] at hproj
              exact Or.inl ⟨hproj.1, hproj.2.1⟩
            next sink2 st2 e hp =>
              simp only [Option.some.injEq] at h
              subst h
              have hproj := play_track_proj env t sink st
              rw [hp] at hproj
              exact Or.inl ⟨hproj.1, hproj.2.1⟩
        · rw [if_neg hse] at h
          split at h
          · exact Option.noConfusion h
          next t hg =>
            simp only [Option.some.injEq] at h
            subst h
            exact Or.inl ⟨rfl, rfl⟩

lemma queueInv_of_eqFields {st st' : AudioState} (hq : st'.queue = st.queue)
    (hc : st'.current_index = st.current_index) (h : QueueInv st) : QueueInv st' := by
  constructor
  · intro hne
    rw [hq, hc]
    exact h.1 (by rw [hq] at hne; exact hne)
  · intro he
    rw [hc]
    exact h.2 (by rw [← hq]; exact he)

lemma handle_preserves_queueInv {env : Env} {c : AudioCommand} {st : AudioState}
    {sink : Sink} {out : HandleOut} (hinv : QueueInv st)
    (h : handle_audio_command env c st sink = some out) : QueueInv out.st := by
  rcases handle_shape h with ⟨hq, hc⟩ | ⟨hq, t, hget⟩ | ⟨hq, hc⟩ | ⟨ps, hq, hc⟩
  · exact queueInv_of_eqFields hq hc hinv
  · constructor
    · intro _
      rw [hq]
      exact get?_some_lt hget
    · intro he
      rw [hq] at he
      rw [he] at hget
      exact Option.noConfusion hget
  · constructor
    · intro hne
      exact absurd hq hne
    · intro _
      exact hc
  · constructor
    · intro hne
      rw [hq, List.length_append, hc]
      by_cases hq0 : st.queue = []
      · rw [hinv.2 hq0]
        have hne2 : resolveFrom env.readTags st.queue.length ps ≠ [] := by
          intro hres
          rw [hq, hres, List.append_nil] at hne
          exact hne hq0
        have : 0 < (resolveFrom env.readTags st.queue.length ps).length := by
          cases hres : resolveFrom env.readTags st.queue.length ps with
          | nil => exact absurd hres hne2
          | cons a l => simp
        omega
      · have := hinv.1 hq0
        omega
    · intro he
      rw [hq] at he
      rw [List.append_eq_nil] at he
      rw [hc]
      exact hinv.2 he.1

lemma handle_preserves_indexInv {env : Env} {c : AudioCommand} {st : AudioState}
    {sink : Sink} {out : HandleOut} (hinv : IndexInv st)
    (h : handle_audio_command env c st sink = some out) : IndexInv out.st := by
  rcases handle_shape h with ⟨hq, _⟩ | ⟨hq, _⟩ | ⟨hq, _⟩ | ⟨ps, hq, _⟩
  · intro p t hpt
    exact hinv p t (by rw [← hq]; exact hpt)
  · intro p t hpt
    exact hinv p t (by rw [← hq]; exact hpt)
  · intro p t hpt
    rw [hq] at hpt
    exact Option.noConfusion hpt
  · intro p t hpt
    rw [hq] at hpt
    rcases get?_append_cases _ _ _ _ hpt with h1 | ⟨h2, h3⟩
    · exact hinv p t h1
    · have := resolveFrom_index env.readTags ps st.queue.length (p - st.queue.length) t h3
      omega

lemma track_progress_queue (sink : Sink) (st : AudioState) :
    (track_progress sink st).1.queue = st.queue := by
  unfold track_progress
  repeat' split
  all_goals rfl

lemma track_progress_ci (sink : Sink) (st : AudioState) :
    (track_progress sink st).1.current_index = st.current_index ∨
    (track_progress sink st).1.current_index < st.queue.length := by
  unfold track_progress
  split
  · split
    · exact Or.inl rfl
    next hne =>
      have hlen : 0 < st.queue.length := by
        cases hl : st.queue with
        | nil => rw [hl] at hne; exact absurd rfl hne
        | cons a l => simp
      split
      next hlt => right; simpa using (by omega : st.current_index + 1 < st.queue.length)
      · split
        · right; simpa using hlen
        · exact Or.inl rfl
  · exact Or.inl rfl

lemma tp_preserves_queueInv (sink : Sink) (st : AudioState) (h : QueueInv st) :
    QueueInv (track_progress sink st).1 := by
  have hq := track_progress_queue sink st
  rcases track_progress_ci sink st with hc | hc
  · exact queueInv_of_eqFields hq hc h
  · constructor
    · intro _
      rw [hq]
      exact hc
    · intro he
      rw [hq] at he
      rw [he] at hc
      simp at hc

lemma tp_preserves_indexInv (sink : Sink) (st : AudioState) (h : IndexInv st) :
    IndexInv (track_progress sink st).1 := by
  intro p t hpt
  rw [track_progress_queue] at hpt
  exact h p t hpt

lemma progress_preserves_queueInv (w : WorkerState) (h : QueueInv w.st) :
    QueueInv (progressPhase w).st := by
  unfold progressPhase
  split
  · exact tp_preserves_queueInv w.sink w.st h
  · exact h

lemma progress_preserves_indexInv (w : WorkerState) (h : IndexInv w.st) :
    IndexInv (progressPhase w).st := by
  unfold progressPhase
  split
  · exact tp_preserves_indexInv w.sink w.st h
  · exact h

lemma tick_preserves_queueInv {env : Env} {w w' : WorkerState}
    {e : Option (String × CmdResult)} (h : QueueInv w.st)
    (ht : tick env w = some (w', e)) : QueueInv w'.st := by
  unfold tick at ht
  split at ht
  · simp only [Option.some.injEq, Prod.mk.injEq] at ht
    rw [← ht.1]
    exact progress_preserves_queueInv w h
  next c rest hch =>
    split at ht
    · exact Option.noConfusion ht
    next r hr =>
      simp only [Option.some.injEq, Prod.mk.injEq] at ht
      rw [← ht.1]
      exact progress_preserves_queueInv ⟨rest, r.st, r.sink⟩
        (handle_preserves_queueInv h hr)

lemma tick_preserves_indexInv {env : Env} {w w' : WorkerState}
    {e : Option (String × CmdResult)} (h : IndexInv w.st)
    (ht : tick env w = some (w', e)) : IndexInv w'.st := by
  unfold tick at ht
  split at ht
  · simp only [Option.some.injEq, Prod.mk.injEq] at ht
    rw [← ht.1]
    exact progress_preserves_indexInv w h
  next c rest hch =>
    split at ht
    · exact Option.noConfusion ht
    next r hr =>
      simp only [Option.some.injEq, Prod.mk.injEq] at ht
      rw [← ht.1]
      exact progress_preserves_indexInv ⟨rest, r.st, r.sink⟩
        (handle_preserves_indexInv h hr)

lemma step_preserves_queueInv {env : Env} {w w' : WorkerState} (h : QueueInv w.st)
    (hs : Step env w w') : QueueInv w'.st := by
  cases hs with
  | send c => exact h
  | tickOk w2 e ht => exact tick_preserves_queueInv h ht
  | devPos p => exact h
  | devDrain => exact h

lemma step_preserves_indexInv {env : Env} {w w' : WorkerState} (h : IndexInv w.st)
    (hs : Step env w w') : IndexInv w'.st := by
  cases hs with
  | send c => exact h
  | tickOk w2 e ht => exact tick_preserves_indexInv h ht
  | devPos p => exact h
  | devDrain => exact h

lemma reachable_queueInv {env : Env} {w : WorkerState} (h : Reachable env w) :
    QueueInv w.st := by
  induction h with
  | init => exact ⟨fun hne => absurd rfl hne, fun _ => rfl⟩
  | step hr hs ih => exact step_preserves_queueInv ih hs

lemma reachable_indexInv {env : Env} {w : WorkerState} (h : Reachable env w) :
    IndexInv w.st := by
  induction h with
  | init =>
      intro p t hpt
      exact Option.noConfusion hpt
  | step hr hs ih => exact step_preserves_indexInv ih hs

/-- Worker state reached from the initial state by sending
`Queue ["a", "b"]` (both files unreadable, so both resolve to
placeholders) and running one loop iteration. -/
def w2demo : WorkerState :=
  ⟨[], ⟨[⟨0, "Unknown Track", "Unknown Artist", "Unknown Album", 0, "a"⟩,
         ⟨1, "Unknown Track", "Unknown Artist", "Unknown Album", 0, "b"⟩],
        0, none, false⟩, ⟨true, false, 0⟩⟩

lemma reach_w2demo : Reachable demoEnv w2demo := by
  have h1 : Step demoEnv initWorker ⟨[.Queue ["a", "b"]], initWorker.st, initWorker.sink⟩ :=
    Step.send initWorker (.Queue ["a", "b"])
  have h2 : tick demoEnv ⟨[.Queue ["a", "b"]], initWorker.st, initWorker.sink⟩ =
      some (w2demo, some ("queue", .Ok (.Queue w2demo.st.queue))) := by decide
  exact Reachable.step (Reachable.step Reachable.init h1) (Step.tickOk _ _ _ h2)

/-- C8: the command handlers and the auto-advance step preserve the
queue invariant (non-empty queue keeps `current_index < length`, empty
queue keeps `current_index = 0`), so the invariant holds in every
reachable worker state. -/
theorem C8_queue_invariant :
    (∀ (env : Env) (c : AudioCommand) (st : AudioState) (sink : Sink) (out : HandleOut),
      QueueInv st → handle_audio_command env c st sink = some out → QueueInv out.st)
  ∧ (∀ (sink : Sink) (st : AudioState), QueueInv st → QueueInv (track_progress sink st).1)
  ∧ (∀ (env : Env) (w : WorkerState), Reachable env w → QueueInv w.st) :=
  ⟨fun _ _ _ _ _ hinv h => handle_preserves_queueInv hinv h,
   fun sink st h => tp_preserves_queueInv sink st h,
   fun _ _ h => reachable_queueInv h⟩

/-- Witness for C8: the invariant theorem applied to the reachable
two-track demo state, to the `Pause` handler on it, and to its progress
step. -/
theorem C8_queue_invariant_witness :
    w2demo.st.queue ≠ [] ∧ w2demo.st.current_index < w2demo.st.queue.length ∧
    (track_progress w2demo.sink w2demo.st).1.current_index <
      (track_progress w2demo.sink w2demo.st).1.queue.length :=
  ⟨by decide,
   (C8_queue_invariant.2.2 demoEnv w2demo reach_w2demo).1 (by decide),
   by
     have h := C8_queue_invariant.2.1 w2demo.sink w2demo.st
       (C8_queue_invariant.2.2 demoEnv w2demo reach_w2demo)
     exact h.1 (by rw [track_progress_queue]; decide)⟩

/-- C10: every operation preserves the implicit ordinal invariant
`queue[p].index = p` (`AddToQueue` numbers new descriptors from the
current length, `ClearQueue` empties the queue, nothing else mutates
it), so it holds in every reachable worker state. -/
theorem C10_track_index_invariant :
    (∀ (env : Env) (c : AudioCommand) (st : AudioState) (sink : Sink) (out : HandleOut),
      IndexInv st → handle_audio_command env c st sink = some out → IndexInv out.st)
  ∧ (∀ (env : Env) (w : WorkerState), Reachable env w → IndexInv w.st) :=
  ⟨fun _ _ _ _ _ hinv h => handle_preserves_indexInv hinv h,
   fun _ _ h => reachable_indexInv h⟩

/-- Witness for C10: the ordinal invariant read off the reachable
two-track demo state at position 1. -/
theorem C10_track_index_invariant_witness :
    w2demo.st.queue.get? 1 =
      some ⟨1, "Unknown Track", "Unknown Artist", "Unknown Album", 0, "b"⟩ ∧
    (⟨1, "Unknown Track", "Unknown Artist", "Unknown Album", 0, "b"⟩ :
      TrackInfo).index = 1 :=
  ⟨by decide,
   C10_track_index_invariant.2 demoEnv w2demo reach_w2demo 1 _ (by decide)⟩

end MusicPlayer
